import Mathlib

/-!
Verification development for the webmail demo server (express + imap + nodemailer).
The definitions below are a shallow embedding of the request handlers in the
server source: pure string and list computations are translated directly, the
asynchronous callback protocol of the imap and nodemailer collaborators is
rendered as explicit traces of actions or as explicit state passing, and the
behaviour of the external mail-protocol client at its boundary (which messages
a fetch emits, how the server stores flags) is taken from the specification of
that boundary.
-/

namespace Webmail

/-! ## JavaScript string and number primitives used by the handlers -/

/-- Lowercased character sequence of a string, modelling the toLowerCase call
used by the folder search (each character lowered individually). -/
def jsToLower (s : String) : List Char := s.toList.map Char.toLower

/-- Bool test that the first character list is a leading segment of the second.
This models the JS startsWith primitive on the underlying character sequences. -/
def leadsWith : List Char → List Char → Bool
  | [], _ => true
  | _ :: _, [] => false
  | p :: ps, c :: cs => p == c && leadsWith ps cs

/-- Bool test that the first character list occurs contiguously inside the
second, modelling the JS includes primitive. -/
def occursIn : List Char → List Char → Bool
  | n, [] => leadsWith n []
  | n, c :: cs => leadsWith n (c :: cs) || occursIn n cs

/-- JS s.startsWith(pre). -/
def jsStartsWith (s pre : String) : Bool := leadsWith pre.toList s.toList

/-- JS s.includes(sub). -/
def jsIncludes (s sub : String) : Bool := occursIn sub.toList s.toList

/-- Result of applying JS parseInt to a query parameter: either NaN (parameter
missing or not numeric) or an integer. -/
inductive JSNum where
  | nan : JSNum
  | int : Int → JSNum
deriving DecidableEq

/-- JS short-circuit defaulting v || d for a parseInt result: NaN and 0 are
falsy and give the default, every other integer passes through. -/
def jsOr (v : JSNum) (d : Int) : Int :=
  match v with
  | .nan => d
  | .int n => if n = 0 then d else n

/-- Line 275 of the server: parseInt(req.query.page) || 1. -/
def parsePage (q : JSNum) : Int := jsOr q 1

/-- Line 276 of the server: parseInt(req.query.perPage) || 10. -/
def parsePerPage (q : JSNum) : Int := jsOr q 10

/-- Index normalisation of JS Array.prototype.slice: a negative index counts
from the end of the array (clamped at 0), a nonnegative index is clamped at the
length. -/
def jsSliceIdx (len : Nat) (i : Int) : Nat :=
  if i < 0 then ((len : Int) + i).toNat else min i.toNat len

/-- JS arr.slice(s, e). -/
def jsSlice (l : List α) (s e : Int) : List α :=
  (l.drop (jsSliceIdx l.length s)).take (jsSliceIdx l.length e - jsSliceIdx l.length s)

/-- Line 289 of the server: Math.ceil(totalMessages / pageSize), the JS real
division followed by the ceiling function. The server only reaches this with a
nonzero pageSize because of the defaulting in parsePerPage. -/
def jsCeilDiv (m : Nat) (d : Int) : Int := ⌈(m : ℚ) / (d : ℚ)⌉

/-! ## Folder resolution (lines 252 to 264 of the get-emails handler) -/

/-- One step of the folder search on line 253:
key.toLowerCase().includes(folder.toLowerCase()). -/
def matchesFolder (key folder : String) : Bool :=
  occursIn (jsToLower folder) (jsToLower key)

/-- Lines 253 to 255: Object.keys(boxes).find over the live folder list. -/
def resolveFolder (boxes : List String) (folder : String) : Option String :=
  boxes.find? (fun key => matchesFolder key folder)

/-- Line 234: req.query.folder || "INBOX" (a missing or empty folder parameter
is falsy and defaults to INBOX). -/
def effectiveFolder : Option String → String
  | none => "INBOX"
  | some s => if s = "" then "INBOX" else s

/-! ## Message records of the retrieval engine -/

/-- Fields of a parsed mail body as produced by the message-parsing
collaborator; each field may be absent. -/
structure ParsedMail where
  fromText : Option String
  subject : Option String
  date : Option String
  text : Option String
  textAsHtml : Option String
  toText : Option String
deriving DecidableEq

/-- One message as emitted by the imap fetch: its sequence number, the flag
list from its attributes event, and its parsed body. -/
structure RawMessage where
  seqno : Nat
  flags : List String
  parsed : ParsedMail
deriving DecidableEq

/-- Normalized Message Record exposed over HTTP (lines 333 to 341). -/
structure Email where
  from_ : String
  subject : String
  date : String
  text : String
  html : String
  to_ : String
  id : Nat
  seen : Bool
deriving DecidableEq

/-- Line 317: attrs.flags.includes of the Seen flag. -/
def hasSeenFlag (flags : List String) : Bool := flags.contains "\\Seen"

/-- Lines 333 to 341: build the normalized record, defaulting every missing
field to the literal N/A placeholder and a missing date to the current time
(passed here explicitly as now). -/
def normalizeEmail (now : String) (m : RawMessage) : Email :=
  { from_ := m.parsed.fromText.getD "N/A"
    subject := m.parsed.subject.getD "N/A"
    date := m.parsed.date.getD now
    text := m.parsed.text.getD "N/A"
    html := m.parsed.textAsHtml.getD "N/A"
    to_ := m.parsed.toText.getD "N/A"
    id := m.seqno
    seen := hasSeenFlag m.flags }

/-- Body of the 200 response of the get-emails handler (lines 349 to 355). -/
structure PageResult where
  emails : List Email
  page : Int
  pageSize : Int
  totalPages : Int
  totalMessages : Nat
deriving DecidableEq

/-- HTTP outcome of a handler: 200 with a body, 404, or 500. -/
inductive Response (α : Type) where
  | ok : α → Response α
  | notFound : String → Response α
  | serverError : String → Response α
deriving DecidableEq

/-! ## The get-emails pipeline (lines 232 to 369) -/

/-- Line 292: results.sort by newest first, a descending sort of the message
identifier list. -/
def sortedIds (ids : List Nat) : List Nat := List.insertionSort (· ≥ ·) ids

/-- Lines 292 to 296: sort descending, then slice the window of the requested
page out of the sorted sequence. -/
def slicedIds (ids : List Nat) (page pageSize : Int) : List Nat :=
  jsSlice (sortedIds ids) ((page - 1) * pageSize) ((page - 1) * pageSize + pageSize)

/-- The get-emails handler. The external collaborators appear as explicit
parameters: boxes is the live folder list, ids the full identifier list the
search returns, emit the stream of messages the imap fetch produces for a
requested identifier list (the fetch end event collects them in emission
order, and Promise.all keeps the order of the promise array, so the response
order is the emission order), and now the current time used as default date.
The openBoxErr and searchErr switches select the error callbacks of openBox
and search. -/
def getEmailsHandler (boxes : List String) (folderQ : Option String)
    (pageQ perPageQ : JSNum) (openBoxErr searchErr : Bool) (ids : List Nat)
    (emit : List Nat → List RawMessage) (now : String) : Response PageResult :=
  match resolveFolder boxes (effectiveFolder folderQ) with
  | none => .notFound "Folder not found"
  | some _ =>
    if openBoxErr then .serverError "Error opening mailbox"
    else if searchErr then .serverError "Error fetching emails"
    else
      let page := parsePage pageQ
      let pageSize := parsePerPage perPageQ
      let totalMessages := ids.length
      let totalPages := jsCeilDiv totalMessages pageSize
      let emails := (emit (slicedIds ids page pageSize)).map (normalizeEmail now)
      .ok { emails := emails, page := page, pageSize := pageSize,
            totalPages := totalPages, totalMessages := totalMessages }

/-- Identifier sequence of the emails of a 200 response, empty otherwise. -/
def emailIds : Response PageResult → List Nat
  | .ok r => r.emails.map Email.id
  | .notFound _ => []
  | .serverError _ => []

/-! ## Fetch options (lines 51 to 57) -/

/-- Shape of the imap fetch options object. -/
structure FetchOptions where
  bodies : String
  struct : Bool
  markSeen : Bool
  envelope : Bool

/-- The fetchOptions constant of the server: markSeen is false so that a fetch
does not mark messages as seen. -/
def fetchOptions : FetchOptions :=
  { bodies := "", struct := true, markSeen := false, envelope := true }

/-! ## Flag state of the mailbox and the mutation handlers -/

/-- Server-side flag store semantics of the imap addFlags command at its
boundary: add the flag to the flag list of the given message if absent. -/
def addFlags (st : Nat → List String) (id : Nat) (flag : String) : Nat → List String :=
  fun j => if j = id then (if (st j).contains flag then st j else flag :: st j) else st j

/-- Server-side flag store semantics of the imap delFlags command at its
boundary: remove the flag from the flag list of the given message. -/
def delFlags (st : Nat → List String) (id : Nat) (flag : String) : Nat → List String :=
  fun j => if j = id then (st j).filter (fun f => f != flag) else st j

/-- The mark-as-read handler (line 214): imap.seq.addFlags(id, Seen). -/
def markRead (st : Nat → List String) (id : Nat) : Nat → List String :=
  addFlags st id "\\Seen"

/-- The mark-as-unread handler (line 183): imap.seq.delFlags(id, Seen). -/
def markUnread (st : Nat → List String) (id : Nat) : Nat → List String :=
  delFlags st id "\\Seen"

/-- Seen state of one message in a flag store. -/
def isSeen (st : Nat → List String) (id : Nat) : Bool := hasSeenFlag (st id)

/-- Effect of an imap fetch on the flag store at the collaborator boundary:
with markSeen set the fetched messages gain the Seen flag, without it the
store is untouched. -/
def applyFetchFlags (opts : FetchOptions) (ids : List Nat) (st : Nat → List String) :
    Nat → List String :=
  if opts.markSeen then ids.foldl (fun acc i => addFlags acc i "\\Seen") st else st

/-- Effect of one get-emails listing on the flag store: the handler fetches the
page slice with the fetchOptions constant. -/
def getEmailsFlagEffect (ids : List Nat) (page pageSize : Int)
    (st : Nat → List String) : Nat → List String :=
  applyFetchFlags fetchOptions (slicedIds ids page pageSize) st

/-! ## Reply composer (send-reply handler, lines 95 to 167) -/

/-- Parsed source message of a reply; the handler reads these fields directly
from the simpleParser result. -/
structure ParsedEmail where
  date : String
  fromText : String
  toText : String
  textAsHtml : String
  subject : String
  messageId : String
deriving DecidableEq

/-- Argument object of transporter.sendMail for the reply (lines 126 to 132). -/
structure OutgoingMail where
  from_ : String
  to_ : String
  subject : String
  html : String
  inReplyTo : String
deriving DecidableEq

/-- Lines 121 to 123: prepend Re: unless the subject already starts with it
(case sensitive exact test). -/
def replySubject (subject : String) : String :=
  if jsStartsWith subject "Re: " then subject else "Re: " ++ subject

/-- Line 118: the reply body, the new text followed by a quoted rendition of
the original message. -/
def replyText (text : String) (email : ParsedEmail) : String :=
  text ++ "<br/><br/>On " ++ email.date ++ ", " ++ email.fromText ++
    " wrote:<br/><br/>" ++ email.textAsHtml

/-- Lines 126 to 132: the reply mail object that is sent. -/
def replyEmail (user text : String) (email : ParsedEmail) : OutgoingMail :=
  { from_ := user ++ "@localhost"
    to_ := email.fromText
    subject := replySubject email.subject
    html := replyText text email
    inReplyTo := email.messageId }

/-- Lines 146 to 151: the raw MIME string the handler appends to the Sent
folder. Note that its From and To headers are interpolated from the original
message, not from the reply object that was sent. -/
def rawMessage (email : ParsedEmail) (subject replyTxt : String) : String :=
  "From: " ++ email.fromText ++ "\r\n" ++
  "To: " ++ email.toText ++ "\r\n" ++
  "Subject: " ++ subject ++ "\r\n" ++
  "Content-Type: text/html; charset=utf-8\r\n\r\n" ++
  replyTxt ++ "\r\n"

/-- Modelled from the spec: a MIME-formatted copy of the sent reply, that is
the same header template filled with the fields of the reply object that was
actually sent. The source has no such definition; it is stated here only to
compare the appended raw message against the wording of the specification. -/
def mimeCopyOfReply (m : OutgoingMail) : String :=
  "From: " ++ m.from_ ++ "\r\n" ++
  "To: " ++ m.to_ ++ "\r\n" ++
  "Subject: " ++ m.subject ++ "\r\n" ++
  "Content-Type: text/html; charset=utf-8\r\n\r\n" ++
  m.html ++ "\r\n"

/-! ## Action traces of the callback-structured handlers -/

/-- Observable actions of a handler run: protocol commands, HTTP response
attempts, and console error logging. -/
inductive Action where
  | openBox : String → Bool → Action
  | addFlags : Nat → String → Action
  | respond : Nat → String → Action
  | expunge : Action
  | logError : Action
  | sendMail : OutgoingMail → Action
  | append : String → String → Action
deriving DecidableEq

/-- Bool test for a response attempt. -/
def isRespond : Action → Bool
  | .respond _ _ => true
  | _ => false

/-- Trace of the delete-email handler (lines 404 to 444). The second openBox
argument is the openReadOnly switch of the imap client, passed as false, so
the Trash folder is opened read-write. The three error switches select the
error callbacks of openBox, addFlags and expunge. On an expunge failure the
code logs the error and then calls res.status(500).json even though the 200
response was already sent. -/
def deleteEmailHandler (id : Nat) (openBoxErr addFlagsErr expungeErr : Bool) :
    List Action :=
  if openBoxErr then
    [.openBox "Trash" false, .logError, .respond 500 "Error opening mailbox"]
  else if addFlagsErr then
    [.openBox "Trash" false, .addFlags id "\\Deleted", .logError,
     .respond 500 "Error deleting email"]
  else
    [.openBox "Trash" false, .addFlags id "\\Deleted",
     .respond 200 "Email deleted", .expunge] ++
      (if expungeErr then [.logError, .respond 500 "Error deleting email"] else [])

/-- Trace of the send-reply handler from the point where the source message has
been fetched and parsed (lines 135 to 159): send the reply, then either log and
respond 500 on a send failure, or respond 200, append the raw MIME message to
the Sent folder, and on an append failure only log. -/
def sendReplyAfterParse (user text : String) (email : ParsedEmail)
    (sendErr appendErr : Bool) : List Action :=
  if sendErr then
    [.sendMail (replyEmail user text email), .logError,
     .respond 500 "Error sending reply"]
  else
    [.sendMail (replyEmail user text email), .respond 200 "Reply sent",
     .append (rawMessage email (replySubject email.subject) (replyText text email))
       "Sent"] ++
      (if appendErr then [.logError] else [])

/-! ## Concrete environments used in witnesses and counterexamples -/

/-- Parsed mail with every field absent. -/
def emptyParsed : ParsedMail :=
  { fromText := none, subject := none, date := none, text := none,
    textAsHtml := none, toText := none }

/-- Fetch collaborator that emits the requested messages in ascending sequence
number order, as a server answering a fetch in mailbox order does. -/
def ascendingEmit (l : List Nat) : List RawMessage :=
  (List.insertionSort (· ≤ ·) l).map
    (fun i => { seqno := i, flags := [], parsed := emptyParsed })

/-- Fetch collaborator that emits the requested messages in the requested
order. -/
def requestOrderEmit (l : List Nat) : List RawMessage :=
  l.map (fun i => { seqno := i, flags := [], parsed := emptyParsed })

/-- Flag store in which every message carries the Seen flag. -/
def allSeenState : Nat → List String := fun _ => ["\\Seen"]

/-- Sample original message used to evaluate the reply composer. -/
def sampleOriginal : ParsedEmail :=
  { date := "Mon, 01 Jan 2024", fromText := "alice@example.com",
    toText := "bob@localhost", textAsHtml := "original body",
    subject := "greetings", messageId := "<mid1@example.com>" }

/-! ## Helper lemmas about the string primitives -/

theorem leadsWith_append_left (a b c : List Char) :
    leadsWith (a ++ b) (a ++ c) = leadsWith b c := by
  induction a with
  | nil => rfl
  | cons x xs ih => simp [leadsWith, ih]

theorem leadsWith_of_append {a b s : List Char} (h : leadsWith (a ++ b) s = true) :
    leadsWith a s = true := by
  induction a generalizing s with
  | nil => rfl
  | cons x xs ih =>
    cases s with
    | nil => simp [leadsWith] at h
    | cons c cs =>
      simp [leadsWith] at h ⊢
      exact ⟨h.1, ih h.2⟩

theorem leadsWith_iff (p s : List Char) :
    leadsWith p s = true ↔ ∃ t, s = p ++ t := by
  induction p generalizing s with
  | nil =>
    constructor
    · intro _
      exact ⟨s, rfl⟩
    · intro _
      rfl
  | cons x xs ih =>
    cases s with
    | nil =>
      constructor
      · intro hcontr
        exact Bool.noConfusion hcontr
      · rintro ⟨t, ht⟩
        exact List.noConfusion ht
    | cons c cs =>
      constructor
      · intro hlw
        have h1 : (x == c) = true ∧ leadsWith xs cs = true := by
          simpa [leadsWith, Bool.and_eq_true] using hlw
        obtain ⟨t, ht⟩ := (ih cs).mp h1.2
        have hx : x = c := by simpa using h1.1
        exact ⟨t, by simp [hx.symm, ht]⟩
      · rintro ⟨t, ht⟩
        injection ht with h1 h2
        subst h1
        simp [leadsWith, (ih cs).mpr ⟨t, h2⟩]

theorem occursIn_iff (n h : List Char) :
    occursIn n h = true ↔ ∃ l r, h = l ++ n ++ r := by
  induction h with
  | nil =>
    rw [show occursIn n [] = leadsWith n [] from rfl]
    constructor
    · intro hh
      obtain ⟨t, ht⟩ := (leadsWith_iff n []).mp hh
      have hnil := List.append_eq_nil.mp ht.symm
      exact ⟨[], [], by simp [hnil.1]⟩
    · rintro ⟨l, r, hlr⟩
      have h2 := List.append_eq_nil.mp hlr.symm
      have h3 := List.append_eq_nil.mp h2.1
      exact (leadsWith_iff n []).mpr ⟨[], by simp [h3.2]⟩
  | cons c cs ih =>
    rw [show occursIn n (c :: cs) = (leadsWith n (c :: cs) || occursIn n cs) from rfl]
    rw [Bool.or_eq_true, leadsWith_iff, ih]
    constructor
    · rintro (⟨t, ht⟩ | ⟨l, r, hlr⟩)
      · exact ⟨[], t, by simp [ht]⟩
      · exact ⟨c :: l, r, by simp [hlr]⟩
    · rintro ⟨l, r, hlr⟩
      cases l with
      | nil =>
        exact Or.inl ⟨r, by simpa using hlr⟩
      | cons y ys =>
        have h2 : c :: cs = y :: (ys ++ n ++ r) := by simpa using hlr
        injection h2 with h3 h4
        exact Or.inr ⟨ys, r, h4⟩

theorem find?_first {α : Type} (p : α → Bool) (l : List α) (b : α)
    (h : l.find? p = some b) :
    ∃ l₁ l₂, l = l₁ ++ b :: l₂ ∧ ∀ x ∈ l₁, p x = false := by
  induction l with
  | nil => exact absurd h (by simp)
  | cons x xs ih =>
    by_cases hx : p x = true
    · rw [List.find?_cons_of_pos xs hx] at h
      injection h with h
      subst h
      exact ⟨[], xs, rfl, by simp⟩
    · rw [List.find?_cons_of_neg xs hx] at h
      obtain ⟨l₁, l₂, rfl, hall⟩ := ih h
      refine ⟨x :: l₁, l₂, rfl, ?_⟩
      intro y hy
      rcases List.mem_cons.mp hy with rfl | hy
      · simpa using hx
      · exact hall y hy

/-! ## Claim C6: reply subject -/

/-- C6 counterexample: a source message whose subject already begins with a
doubled Re: marker keeps that subject, so the reply subject does start with
Re: Re: even though the original subject starts with Re: . The universally
quantified claim is therefore false as stated. -/
theorem replySubject_double_cex :
    jsStartsWith "Re: Re: a" "Re: " = true ∧
    replySubject "Re: Re: a" = "Re: Re: a" ∧
    jsStartsWith (replySubject "Re: Re: a") "Re: Re: " = true := by
  refine ⟨by decide, by decide, by decide⟩

/-- C6 amended: the reply subject is the original subject with Re: prepended
unless the original subject already starts with Re: (exact case sensitive
test), in which case it is unchanged; consequently the composer never adds a
second Re: marker, so the reply subject starts with Re: Re: exactly when the
original subject already did. -/
theorem replySubject_amended (s : String) :
    (jsStartsWith s "Re: " = true → replySubject s = s) ∧
    (jsStartsWith s "Re: " = false → replySubject s = "Re: " ++ s) ∧
    jsStartsWith (replySubject s) "Re: Re: " = jsStartsWith s "Re: Re: " := by
  refine ⟨fun h => by simp [replySubject, h], fun h => by simp [replySubject, h], ?_⟩
  by_cases h : jsStartsWith s "Re: " = true
  · simp [replySubject, h]
  · have hfalse : jsStartsWith s "Re: " = false := by
      cases hb : jsStartsWith s "Re: " with
      | true => exact absurd hb h
      | false => rfl
    have hsplit : ("Re: Re: ").toList = ("Re: ").toList ++ ("Re: ").toList := by decide
    have happ : ("Re: " ++ s).toList = ("Re: ").toList ++ s.toList := by
      show ("Re: " ++ s).data = ("Re: ").data ++ s.data
      exact String.data_append _ _
    have hrs : replySubject s = "Re: " ++ s := by simp [replySubject, hfalse]
    have hl : jsStartsWith ("Re: " ++ s) "Re: Re: " = false := by
      rw [jsStartsWith, hsplit, happ, leadsWith_append_left]
      exact hfalse
    have hr : jsStartsWith s "Re: Re: " = false := by
      cases hc : jsStartsWith s "Re: Re: " with
      | false => rfl
      | true =>
        have h2 : leadsWith (("Re: ").toList ++ ("Re: ").toList) s.toList = true := by
          rw [← hsplit]
          exact hc
        have hcontr : jsStartsWith s "Re: " = true := leadsWith_of_append h2
        rw [hfalse] at hcontr
        exact Bool.noConfusion hcontr
    rw [hrs, hl, hr]

/-- C6 amended witness at a subject that already carries the Re: marker. -/
theorem replySubject_amended_witness :
    jsStartsWith "Re: hello" "Re: " = true ∧ replySubject "Re: hello" = "Re: hello" :=
  ⟨by decide, (replySubject_amended "Re: hello").1 (by decide)⟩
/-! ## Claim C7: listing does not mutate flags -/

theorem hasSeenFlag_iff (flags : List String) :
    hasSeenFlag flags = true ↔ "\\Seen" ∈ flags := by
  simp [hasSeenFlag, List.contains, List.elem_iff]

/-- C7: listing emails via get-emails never mutates the seen flag of any
message: the fetchOptions constant carries markSeen false, and with it the
flag effect of the fetch of the page slice is the identity on the flag store,
so every message keeps the flag state it had before the listing. -/
theorem getEmails_preserves_flags :
    fetchOptions.markSeen = false ∧
    ∀ (ids : List Nat) (page pageSize : Int) (st : Nat → List String),
      getEmailsFlagEffect ids page pageSize st = st :=
  ⟨rfl, fun _ _ _ _ => rfl⟩

/-! ## Claim C9: markRead and markUnread -/

/-- C9 counterexample: on a message that is already seen, markRead followed by
markUnread leaves the message unseen, so the original seen flag is not
restored and the round-trip law fails as stated. -/
theorem markFlags_roundtrip_cex :
    isSeen (markUnread (markRead allSeenState 1) 1) 1 ≠ isSeen allSeenState 1 := by
  decide

/-- C9 amended: markRead then markUnread always leaves the message unseen and
markUnread then markRead always leaves it seen, while flags of every other
message are untouched; hence the first round trip restores the original seen
flag exactly when the message was initially unseen, and the second exactly
when it was initially seen. -/
theorem markFlags_amended (st : Nat → List String) (id : Nat) :
    isSeen (markUnread (markRead st id) id) id = false ∧
    isSeen (markRead (markUnread st id) id) id = true ∧
    (∀ j, j ≠ id → markUnread (markRead st id) id j = st j ∧
      markRead (markUnread st id) id j = st j) ∧
    (isSeen (markUnread (markRead st id) id) id = isSeen st id ↔
      isSeen st id = false) ∧
    (isSeen (markRead (markUnread st id) id) id = isSeen st id ↔
      isSeen st id = true) := by
  have h1 : isSeen (markUnread (markRead st id) id) id = false := by
    simp only [isSeen, markUnread, delFlags, if_pos]
    apply Bool.eq_false_iff.mpr
    intro hmem
    rw [hasSeenFlag_iff] at hmem
    have h2 := (List.mem_filter.mp hmem).2
    simp at h2
  have h2 : isSeen (markRead (markUnread st id) id) id = true := by
    simp only [isSeen, markRead, addFlags, if_pos]
    cases hc : (markUnread st id id).contains "\\Seen" with
    | true =>
      simp only [hc, if_pos]
      exact hc
    | false =>
      simp only [hc, Bool.false_eq_true, if_neg, if_false]
      rw [hasSeenFlag_iff]
      exact List.mem_cons_self _ _
  have h3 : ∀ j, j ≠ id → markUnread (markRead st id) id j = st j ∧
      markRead (markUnread st id) id j = st j := by
    intro j hj
    constructor <;> simp [markRead, markUnread, addFlags, delFlags, hj]
  exact ⟨h1, h2, h3, by rw [h1]; exact eq_comm, by rw [h2]; exact eq_comm⟩

/-- C9 amended witness on the all-seen flag store and message 1. -/
theorem markFlags_amended_witness :
    isSeen (markUnread (markRead allSeenState 1) 1) 1 = false ∧
    isSeen (markRead (markUnread allSeenState 1) 1) 1 = true ∧
    ((2 : Nat) ≠ 1 ∧ markUnread (markRead allSeenState 1) 1 2 = allSeenState 2) := by
  obtain ⟨h1, h2, h3, _, _⟩ := markFlags_amended allSeenState 1
  exact ⟨h1, h2, by decide, (h3 2 (by decide)).1⟩

/-! ## Claim C10: page parameter defaulting -/

/-- C10 counterexample: a negative perPage query parameter is truthy in JS, so
it is not replaced by the default and the pageSize used by the handler is the
negative number itself, not a positive integer. -/
theorem parsePerPage_negative_cex :
    parsePerPage (JSNum.int (-5)) = -5 ∧ ¬ (0 < parsePerPage (JSNum.int (-5))) := by
  decide

/-- C10 amended: a missing, non-numeric, or zero page parameter is replaced by
the default 1 and a missing, non-numeric, or zero perPage parameter by the
default 10; consequently the page and pageSize used by the handler are always
nonzero integers, so the ceiling division computing totalPages never divides
by zero (though a negative perPage is passed through unchanged). -/
theorem pageParams_amended :
    (∀ q : JSNum, (q = JSNum.nan ∨ q = JSNum.int 0) →
      parsePage q = 1 ∧ parsePerPage q = 10) ∧
    (∀ q : JSNum, parsePage q ≠ 0 ∧ parsePerPage q ≠ 0) := by
  constructor
  · rintro q (rfl | rfl) <;> exact ⟨rfl, rfl⟩
  · intro q
    cases q with
    | nan => exact ⟨by decide, by decide⟩
    | int n =>
      by_cases h : n = 0
      · subst h
        exact ⟨by decide, by decide⟩
      · exact ⟨by simp [parsePage, jsOr, h], by simp [parsePerPage, jsOr, h]⟩

/-- C10 amended witness: a zero parameter takes the defaults and a negative
perPage is a nonzero pageSize. -/
theorem pageParams_amended_witness :
    (JSNum.int 0 = JSNum.nan ∨ JSNum.int 0 = JSNum.int 0) ∧
    parsePage (JSNum.int 0) = 1 ∧ parsePerPage (JSNum.int 0) = 10 ∧
    parsePerPage (JSNum.int (-7)) ≠ 0 := by
  refine ⟨Or.inr rfl, ?_, ?_, ?_⟩
  · exact (pageParams_amended.1 (JSNum.int 0) (Or.inr rfl)).1
  · exact (pageParams_amended.1 (JSNum.int 0) (Or.inr rfl)).2
  · exact (pageParams_amended.2 (JSNum.int (-7))).2

/-! ## Claim C5: delete handler trace -/

/-- C5: evaluating the delete handler with identifier 1 and a failing expunge.
The trace shows the Trash folder opened read-write, the deleted flag set, the
200 success response sent before the expunge, and then, on the expunge
failure, both a console log and a second response attempt with status 500 —
the code does not merely log the expunge failure as the claim states, it also
calls res.status(500).json after the success response has already been sent. -/
theorem deleteEmail_expunge_failure_trace :
    deleteEmailHandler 1 false false true =
      [Action.openBox "Trash" false, Action.addFlags 1 "\\Deleted",
       Action.respond 200 "Email deleted", Action.expunge, Action.logError,
       Action.respond 500 "Error deleting email"] := rfl

/-! ## Claim C8: reply send and append flow -/

/-- C8 counterexample: the raw message appended to the Sent folder is not a
MIME copy of the sent reply — its From and To headers are interpolated from
the original message (here alice@example.com and bob@localhost) instead of
the From and To of the reply that was sent (bob@localhost and
alice@example.com). -/
theorem sendReply_append_not_copy_cex :
    sendReplyAfterParse "bob" "hi" sampleOriginal false false =
      [Action.sendMail (replyEmail "bob" "hi" sampleOriginal),
       Action.respond 200 "Reply sent",
       Action.append (rawMessage sampleOriginal (replySubject sampleOriginal.subject)
         (replyText "hi" sampleOriginal)) "Sent"] ∧
    rawMessage sampleOriginal (replySubject sampleOriginal.subject)
        (replyText "hi" sampleOriginal) ≠
      mimeCopyOfReply (replyEmail "bob" "hi" sampleOriginal) :=
  ⟨rfl, by decide⟩

/-- C8 amended: when the send fails the handler logs, responds with the
reply-send failure, and never attempts the append; when the send succeeds the
only response in the trace is the 200 success, it precedes the append of the
raw MIME message (whose subject and body are those of the reply but whose From
and To headers come from the original message) to the Sent folder, and an
append failure adds only a log entry — it is never surfaced as a response. -/
theorem sendReply_flow_amended (user text : String) (email : ParsedEmail)
    (appendErr : Bool) :
    ((Action.respond 500 "Error sending reply") ∈
        sendReplyAfterParse user text email true appendErr ∧
      ∀ raw mb, Action.append raw mb ∉ sendReplyAfterParse user text email true appendErr) ∧
    (sendReplyAfterParse user text email false appendErr).filter isRespond =
      [Action.respond 200 "Reply sent"] ∧
    (sendReplyAfterParse user text email false appendErr).take 3 =
      [Action.sendMail (replyEmail user text email), Action.respond 200 "Reply sent",
       Action.append (rawMessage email (replySubject email.subject)
         (replyText text email)) "Sent"] ∧
    (appendErr = true →
      sendReplyAfterParse user text email false appendErr =
        [Action.sendMail (replyEmail user text email), Action.respond 200 "Reply sent",
         Action.append (rawMessage email (replySubject email.subject)
           (replyText text email)) "Sent", Action.logError]) := by
  refine ⟨⟨?_, ?_⟩, ?_, ?_, ?_⟩
  · simp [sendReplyAfterParse]
  · intro raw mb
    simp [sendReplyAfterParse]
  · cases appendErr <;> simp [sendReplyAfterParse, isRespond]
  · cases appendErr <;> simp [sendReplyAfterParse]
  · intro hae
    subst hae
    simp [sendReplyAfterParse]

/-- C8 amended witness at the sample original message. -/
theorem sendReply_flow_amended_witness :
    (Action.respond 500 "Error sending reply") ∈
      sendReplyAfterParse "bob" "hi" sampleOriginal true false ∧
    (sendReplyAfterParse "bob" "hi" sampleOriginal false true).filter isRespond =
      [Action.respond 200 "Reply sent"] :=
  ⟨(sendReply_flow_amended "bob" "hi" sampleOriginal false).1.1,
   (sendReply_flow_amended "bob" "hi" sampleOriginal true).2.1⟩
/-! ## Helper lemmas about the retrieval pipeline -/

theorem sortedIds_sorted (ids : List Nat) : (sortedIds ids).Sorted (· ≥ ·) :=
  List.sorted_insertionSort _ _

theorem sortedIds_perm (ids : List Nat) : (sortedIds ids).Perm ids :=
  List.perm_insertionSort _ _

theorem jsSlice_nonneg {α : Type} (l : List α) (s e : Int) (h0 : 0 ≤ s) (hse : s ≤ e) :
    jsSlice l s e = (l.drop s.toNat).take (e.toNat - s.toNat) := by
  simp only [jsSlice, jsSliceIdx]
  rw [if_neg (by omega : ¬ s < 0), if_neg (by omega : ¬ e < 0)]
  rcases le_or_lt s.toNat l.length with hsl | hsl
  · rw [min_eq_left hsl]
    rcases le_or_lt e.toNat l.length with hel | hel
    · rw [min_eq_left hel]
    · rw [min_eq_right hel.le]
      have hd : (l.drop s.toNat).length = l.length - s.toNat := List.length_drop _ _
      rw [List.take_of_length_le (le_of_eq hd), List.take_of_length_le (by rw [hd]; omega)]
  · rw [min_eq_right hsl.le, List.drop_length, List.drop_eq_nil_of_le hsl.le]
    simp

theorem slicedIds_eq (ids : List Nat) (page pageSize : Int)
    (hp : 1 ≤ page) (hs : 1 ≤ pageSize) :
    slicedIds ids page pageSize =
      ((sortedIds ids).drop ((page - 1) * pageSize).toNat).take pageSize.toNat := by
  have h0 : 0 ≤ (page - 1) * pageSize := mul_nonneg (by omega) (by omega)
  have hse : (page - 1) * pageSize ≤ (page - 1) * pageSize + pageSize :=
    le_add_of_nonneg_right (by omega)
  have hc : ((page - 1) * pageSize + pageSize).toNat - ((page - 1) * pageSize).toNat =
      pageSize.toNat := by
    rw [Int.toNat_add h0 (by omega)]
    omega
  rw [slicedIds, jsSlice_nonneg _ _ _ h0 hse, hc]

theorem slicedIds_sorted (ids : List Nat) (page pageSize : Int) :
    (slicedIds ids page pageSize).Sorted (· ≥ ·) := by
  have hsub : List.Sublist (slicedIds ids page pageSize) (sortedIds ids) := by
    rw [slicedIds, jsSlice]
    exact List.Sublist.trans (List.take_sublist _ _) (List.drop_sublist _ _)
  exact (sortedIds_sorted ids).sublist hsub

theorem slicedIds_length_le (ids : List Nat) (page pageSize : Int)
    (hp : 1 ≤ page) (hs : 1 ≤ pageSize) :
    (slicedIds ids page pageSize).length ≤ pageSize.toNat := by
  rw [slicedIds_eq ids page pageSize hp hs, List.length_take]
  exact min_le_left _ _

theorem slicedIds_eq_nil (ids : List Nat) (page pageSize : Int)
    (hp : 1 ≤ page) (hs : 1 ≤ pageSize)
    (hout : (ids.length : Int) ≤ (page - 1) * pageSize) :
    slicedIds ids page pageSize = [] := by
  rw [slicedIds_eq ids page pageSize hp hs]
  have hlen : (sortedIds ids).length = ids.length := (sortedIds_perm ids).length_eq
  have hle : (sortedIds ids).length ≤ ((page - 1) * pageSize).toNat := by
    rw [hlen]
    exact (Int.le_toNat (mul_nonneg (by omega) (by omega))).mpr hout
  rw [List.drop_eq_nil_of_le hle]
  simp

theorem jsCeilDiv_pos (m : Nat) (d : Int) (hd : 1 ≤ d) :
    jsCeilDiv m d = ((m + d.toNat - 1) / d.toNat : Nat) := by
  obtain ⟨n, rfl⟩ : ∃ n : Nat, d = (n : Int) :=
    ⟨d.toNat, (Int.toNat_of_nonneg (by omega)).symm⟩
  have hn : 1 ≤ n := by exact_mod_cast hd
  obtain ⟨k, rfl⟩ : ∃ k, n = k + 1 := ⟨n - 1, by omega⟩
  rw [Int.toNat_natCast]
  have harith : m + (k + 1) - 1 = m + k := by omega
  rw [harith]
  have hq := Nat.div_add_mod (m + k) (k + 1)
  have hrem := Nat.mod_lt (m + k) (show 0 < k + 1 by omega)
  rw [jsCeilDiv, Int.ceil_eq_iff]
  set q := (m + k) / (k + 1) with hqd
  set r := (m + k) % (k + 1) with hrd
  set t := (k + 1) * q with htd
  have hA : t ≤ m + k := by omega
  have hB : m ≤ t := by omega
  have hpos : (0 : ℚ) < (((k + 1 : Nat) : Int) : ℚ) := by positivity
  constructor
  · rw [lt_div_iff₀ hpos]
    have hAq : ((t : Nat) : ℚ) ≤ ((m + k : Nat) : ℚ) := by exact_mod_cast hA
    rw [htd] at hAq
    push_cast at hAq ⊢
    linarith
  · rw [div_le_iff₀ hpos]
    have hBq : ((m : Nat) : ℚ) ≤ ((t : Nat) : ℚ) := by exact_mod_cast hB
    rw [htd] at hBq
    push_cast at hBq ⊢
    linarith

theorem map_id_normalize (now : String) (ms : List RawMessage) :
    (ms.map (normalizeEmail now)).map Email.id = ms.map RawMessage.seqno := by
  rw [List.map_map]
  rfl
/-! ## Claim C1: pagination arithmetic of get-emails -/

/-- C1: for a get-emails request with valid page and pageSize (both at least
one after defaulting) on a resolvable folder, where the fetch returns exactly
the requested messages, the handler answers 200 with a body whose
totalMessages is the number of identifiers in the folder, whose totalPages is
the ceiling of totalMessages over pageSize, whose email count is at most
pageSize, and whose emails are empty whenever the page lies beyond the last
range — an out-of-range page is not an error. -/
theorem getEmails_pagination (boxes : List String) (folderQ : Option String)
    (pageQ perPageQ : JSNum) (ids : List Nat) (emit : List Nat → List RawMessage)
    (now : String)
    (hfound : (resolveFolder boxes (effectiveFolder folderQ)).isSome = true)
    (hp : 1 ≤ parsePage pageQ) (hs : 1 ≤ parsePerPage perPageQ)
    (hemit : ((emit (slicedIds ids (parsePage pageQ) (parsePerPage perPageQ))).map
      RawMessage.seqno).Perm (slicedIds ids (parsePage pageQ) (parsePerPage perPageQ))) :
    ∃ r : PageResult,
      getEmailsHandler boxes folderQ pageQ perPageQ false false ids emit now =
        Response.ok r ∧
      r.totalMessages = ids.length ∧
      r.totalPages = ((ids.length + (parsePerPage perPageQ).toNat - 1) /
        (parsePerPage perPageQ).toNat : Nat) ∧
      r.emails.length ≤ (parsePerPage perPageQ).toNat ∧
      ((ids.length : Int) ≤ (parsePage pageQ - 1) * parsePerPage perPageQ →
        r.emails = []) := by
  obtain ⟨b, hb⟩ := Option.isSome_iff_exists.mp hfound
  refine ⟨⟨(emit (slicedIds ids (parsePage pageQ) (parsePerPage perPageQ))).map
      (normalizeEmail now), parsePage pageQ, parsePerPage perPageQ,
      jsCeilDiv ids.length (parsePerPage perPageQ), ids.length⟩, ?_, rfl, ?_, ?_, ?_⟩
  · simp [getEmailsHandler, hb]
  · exact jsCeilDiv_pos ids.length (parsePerPage perPageQ) hs
  · have hlen := hemit.length_eq
    rw [List.length_map] at hlen
    show ((emit (slicedIds ids (parsePage pageQ) (parsePerPage perPageQ))).map
      (normalizeEmail now)).length ≤ (parsePerPage perPageQ).toNat
    rw [List.length_map, hlen]
    exact slicedIds_length_le ids (parsePage pageQ) (parsePerPage perPageQ) hp hs
  · intro hout
    have hnil := slicedIds_eq_nil ids (parsePage pageQ) (parsePerPage perPageQ) hp hs hout
    rw [hnil] at hemit
    have hememp : emit ([] : List Nat) = [] := List.map_eq_nil_iff.mp hemit.eq_nil
    show (emit (slicedIds ids (parsePage pageQ) (parsePerPage perPageQ))).map
      (normalizeEmail now) = []
    rw [hnil, hememp]
    rfl

/-- C1 witness: the empty mailbox scenario, page 1 and pageSize 10, answers
200 with empty emails, zero totalPages and zero totalMessages. -/
theorem getEmails_pagination_witness :
    ∃ r : PageResult,
      getEmailsHandler ["INBOX"] none (JSNum.int 1) (JSNum.int 10) false false []
        (fun _ => []) "now" = Response.ok r ∧
      r.emails = [] ∧ r.totalPages = 0 ∧ r.totalMessages = 0 := by
  obtain ⟨r, hok, hm, hpages, _, hempty⟩ :=
    getEmails_pagination ["INBOX"] none (JSNum.int 1) (JSNum.int 10) []
      (fun _ => []) "now" (by decide) (by decide) (by decide) (by decide)
  refine ⟨r, hok, hempty (by decide), ?_, hm⟩
  rw [hpages]
  decide

/-! ## Claim C2: the page slice of the sorted identifier list -/

/-- C2: for every folder contents and every valid page and pageSize, the
identifier list the handler fetches is exactly the window from
(page - 1) * pageSize of length pageSize of the descending-sorted identifier
sequence: for any descending-sorted permutation l of the folder identifiers,
slicedIds equals the drop and take of l with those bounds. -/
theorem getEmails_slice (ids : List Nat) (page pageSize : Int)
    (hp : 1 ≤ page) (hs : 1 ≤ pageSize) (l : List Nat) (hperm : l.Perm ids)
    (hsorted : l.Sorted (· ≥ ·)) :
    slicedIds ids page pageSize =
      (l.drop ((page - 1) * pageSize).toNat).take pageSize.toNat := by
  have heq : sortedIds ids = l :=
    List.eq_of_perm_of_sorted ((sortedIds_perm ids).trans hperm.symm)
      (sortedIds_sorted ids) hsorted
  rw [slicedIds_eq ids page pageSize hp hs, heq]

/-- C2 witness: with messages 1 to 25, page 2 and pageSize 10 fetch exactly
identifiers 15 down to 6. -/
theorem getEmails_slice_witness :
    slicedIds [1, 2, 3, 4, 5, 6, 7, 8, 9, 10, 11, 12, 13, 14, 15, 16, 17, 18,
      19, 20, 21, 22, 23, 24, 25] 2 10 = [15, 14, 13, 12, 11, 10, 9, 8, 7, 6] := by
  have h := getEmails_slice
    [1, 2, 3, 4, 5, 6, 7, 8, 9, 10, 11, 12, 13, 14, 15, 16, 17, 18, 19, 20, 21,
      22, 23, 24, 25] 2 10 (by decide) (by decide)
    [25, 24, 23, 22, 21, 20, 19, 18, 17, 16, 15, 14, 13, 12, 11, 10, 9, 8, 7, 6,
      5, 4, 3, 2, 1] (by decide) (by decide)
  rw [h]
  decide

/-! ## Claim C3: response order of the emails -/

/-- C3 counterexample: a successful listing against a fetch collaborator that
emits the requested messages in ascending sequence order (as a mail server
answering in mailbox order does) returns the emails in ascending identifier
order, not newest-first: the handler joins the parses with Promise.all, which
keeps emission order and never re-sorts. -/
theorem getEmails_order_cex :
    ((ascendingEmit (slicedIds [1, 2] 1 10)).map RawMessage.seqno).Perm
      (slicedIds [1, 2] 1 10) ∧
    emailIds (getEmailsHandler ["INBOX"] none (JSNum.int 1) (JSNum.int 10) false
      false [1, 2] ascendingEmit "now") = [1, 2] ∧
    ¬ (emailIds (getEmailsHandler ["INBOX"] none (JSNum.int 1) (JSNum.int 10) false
      false [1, 2] ascendingEmit "now")).Sorted (· ≥ ·) := by
  refine ⟨by decide, by decide, by decide⟩

/-- C3 amended: the emails of a successful listing are the normalized records
of the messages the fetch emitted, in emission order; their identifiers are a
permutation of the requested page slice whenever the fetch emits exactly the
requested messages, and they are in descending identifier order whenever the
fetch emits the messages in the requested order — but the handler itself never
re-sorts after the join, so the descending order is not guaranteed for every
emission order. -/
theorem getEmails_order_amended (boxes : List String) (folderQ : Option String)
    (pageQ perPageQ : JSNum) (ids : List Nat) (emit : List Nat → List RawMessage)
    (now : String)
    (hfound : (resolveFolder boxes (effectiveFolder folderQ)).isSome = true) :
    ∃ r : PageResult,
      getEmailsHandler boxes folderQ pageQ perPageQ false false ids emit now =
        Response.ok r ∧
      r.emails.map Email.id =
        (emit (slicedIds ids (parsePage pageQ) (parsePerPage perPageQ))).map
          RawMessage.seqno ∧
      (((emit (slicedIds ids (parsePage pageQ) (parsePerPage perPageQ))).map
          RawMessage.seqno).Perm (slicedIds ids (parsePage pageQ) (parsePerPage perPageQ)) →
        (r.emails.map Email.id).Perm
          (slicedIds ids (parsePage pageQ) (parsePerPage perPageQ))) ∧
      ((emit (slicedIds ids (parsePage pageQ) (parsePerPage perPageQ))).map
          RawMessage.seqno = slicedIds ids (parsePage pageQ) (parsePerPage perPageQ) →
        (r.emails.map Email.id).Sorted (· ≥ ·)) := by
  obtain ⟨b, hb⟩ := Option.isSome_iff_exists.mp hfound
  refine ⟨⟨(emit (slicedIds ids (parsePage pageQ) (parsePerPage perPageQ))).map
      (normalizeEmail now), parsePage pageQ, parsePerPage perPageQ,
      jsCeilDiv ids.length (parsePerPage perPageQ), ids.length⟩, ?_, ?_, ?_, ?_⟩
  · simp [getEmailsHandler, hb]
  · exact map_id_normalize now _
  · intro hperm
    rw [show (⟨(emit (slicedIds ids (parsePage pageQ) (parsePerPage perPageQ))).map
      (normalizeEmail now), parsePage pageQ, parsePerPage perPageQ,
      jsCeilDiv ids.length (parsePerPage perPageQ), ids.length⟩ : PageResult).emails.map
        Email.id = _ from map_id_normalize now _]
    exact hperm
  · intro horder
    rw [show (⟨(emit (slicedIds ids (parsePage pageQ) (parsePerPage perPageQ))).map
      (normalizeEmail now), parsePage pageQ, parsePerPage perPageQ,
      jsCeilDiv ids.length (parsePerPage perPageQ), ids.length⟩ : PageResult).emails.map
        Email.id = _ from map_id_normalize now _]
    rw [horder]
    exact slicedIds_sorted ids (parsePage pageQ) (parsePerPage perPageQ)

/-- C3 amended witness: a fetch emitting in the requested order yields a
descending email sequence. -/
theorem getEmails_order_amended_witness :
    (requestOrderEmit (slicedIds [1, 2, 3] 1 2)).map RawMessage.seqno =
      slicedIds [1, 2, 3] 1 2 ∧
    (emailIds (getEmailsHandler ["INBOX"] none JSNum.nan (JSNum.int 2) false false
      [1, 2, 3] requestOrderEmit "now")).Sorted (· ≥ ·) := by
  obtain ⟨r, hok, h1, h2, h3⟩ := getEmails_order_amended ["INBOX"] none JSNum.nan
    (JSNum.int 2) [1, 2, 3] requestOrderEmit "now" (by decide)
  refine ⟨by decide, ?_⟩
  rw [hok]
  exact h3 (by decide)

/-! ## Claim C4: folder resolution -/

/-- C4: folder resolution matches the requested name as a case-insensitive
contiguous substring of each live folder name and returns the first match: a
resolved folder is a member of the live list, its lowercased name contains the
lowercased request as a contiguous segment, and every earlier folder in the
list fails the match; when no folder matches, the handler answers 404 with
Folder not found — the resolution is a total function, never a crash. -/
theorem resolveFolder_spec (boxes : List String) (folderQ : Option String)
    (pageQ perPageQ : JSNum) (ob sb : Bool) (ids : List Nat)
    (emit : List Nat → List RawMessage) (now : String) :
    (resolveFolder boxes (effectiveFolder folderQ) = none →
      getEmailsHandler boxes folderQ pageQ perPageQ ob sb ids emit now =
        Response.notFound "Folder not found") ∧
    (∀ b, resolveFolder boxes (effectiveFolder folderQ) = some b →
      b ∈ boxes ∧
      (∃ l₁ l₂, jsToLower b = l₁ ++ jsToLower (effectiveFolder folderQ) ++ l₂) ∧
      (∃ l₁ l₂, boxes = l₁ ++ b :: l₂ ∧
        ∀ x ∈ l₁, matchesFolder x (effectiveFolder folderQ) = false)) := by
  constructor
  · intro hnone
    simp [getEmailsHandler, hnone]
  · intro b hb
    have hb' : boxes.find? (fun key => matchesFolder key (effectiveFolder folderQ)) =
        some b := hb
    refine ⟨List.mem_of_find?_eq_some hb', ?_, find?_first _ _ _ hb'⟩
    have hmatch := List.find?_some hb'
    exact (occursIn_iff _ _).mp hmatch

/-- C4 witness: resolving sent against a folder list containing Sent Items
returns Sent Items, and a request for a folder matching nothing answers 404. -/
theorem resolveFolder_spec_witness :
    getEmailsHandler ["Personal"] (some "sent") JSNum.nan JSNum.nan false false []
      (fun _ => []) "now" = Response.notFound "Folder not found" ∧
    resolveFolder ["Drafts", "Sent Items"] "sent" = some "Sent Items" ∧
    "Sent Items" ∈ ["Drafts", "Sent Items"] := by
  refine ⟨(resolveFolder_spec ["Personal"] (some "sent") JSNum.nan JSNum.nan false
    false [] (fun _ => []) "now").1 (by decide), by decide, ?_⟩
  exact ((resolveFolder_spec ["Drafts", "Sent Items"] (some "sent") JSNum.nan
    JSNum.nan false false [] (fun _ => []) "now").2 "Sent Items" (by decide)).1

end Webmail
